import Mathlib

/-!
Verification of the gdrivy download-orchestration core.

A shallow embedding of the TypeScript sources:

- `src/services/errorHandler.ts` (error taxonomy, retry configuration,
  backoff delay computation, retryability classification),
- `src/services/retryManager.ts` (`RetryManager.executeWithRetry`,
  `canRetry`, `resetState`), where the `while` loop is encoded with an
  explicit fuel parameter that provably never runs out,
- `src/services/linkParser.ts` (`LinkParserService`: the three anchored
  URL patterns, `parse`, `isValidGoogleDriveUrl`, `extractFileId`,
  `extractFolderId`, `reconstructUrl`), with strings embedded as `List Char`
  and the regular expressions hand-compiled to literal/`takeWhile` matchers,
- `server/src/middleware/auth.ts` (`extractUserToken`, `clearAuthSession`)
  together with `OAuthService.isTokenExpired` and the logout route's
  session destruction,
- `server/src/services/googleDrive.ts` (`handleApiError` status-code
  classification),
- the zustand store actions `retryDownload` and `calculateFolderProgress`
  (JS `Map` embedded as an insertion-ordered association list, JS numbers
  abstracted as `ℚ`).

Theorems at the end settle the frozen claims C1-C10 about this code.
-/

/-! ## Error taxonomy (src/types: ErrorCode) -/

inductive ErrorCode where
  | INVALID_LINK
  | FILE_NOT_FOUND
  | ACCESS_DENIED
  | QUOTA_EXCEEDED
  | NETWORK_ERROR
  | DOWNLOAD_FAILED
  | API_ERROR
deriving DecidableEq, Repr

/-! ## Retry configuration and helpers (src/services/errorHandler.ts) -/

def RETRY_CONFIG.maxRetries : Nat := 3

def RETRY_CONFIG.initialDelay : Nat := 1000

def RETRY_CONFIG.backoffMultiplier : Nat := 2

def RETRY_CONFIG.maxDelay : Nat := 10000

/-- `calculateRetryDelay` from errorHandler.ts:
`min(initialDelay * backoffMultiplier ** attempt, maxDelay)`. -/
def calculateRetryDelay (attempt : Nat) : Nat :=
  min (RETRY_CONFIG.initialDelay * RETRY_CONFIG.backoffMultiplier ^ attempt)
    RETRY_CONFIG.maxDelay

/-- `isRetryableError` from errorHandler.ts: only NETWORK_ERROR and
DOWNLOAD_FAILED are retryable. -/
def isRetryableError (code : ErrorCode) : Bool :=
  code = ErrorCode.NETWORK_ERROR || code = ErrorCode.DOWNLOAD_FAILED

/-- `RetryState` from errorHandler.ts (the `lastError` carries only the
error code of the stored `AppError`). -/
structure RetryState where
  attempts : Nat
  lastError : Option ErrorCode
  isRetrying : Bool
deriving DecidableEq, Repr

/-- `createRetryState` from errorHandler.ts. -/
def createRetryState : RetryState :=
  { attempts := 0, lastError := none, isRetrying := false }

/-- `canRetry` (errorHandler.ts and `RetryManager.canRetry`):
`attempts < maxRetries`. -/
def canRetry (state : RetryState) : Bool :=
  state.attempts < RETRY_CONFIG.maxRetries

/-! ## RetryManager.executeWithRetry (src/services/retryManager.ts)

The operation under retry is modelled as `op : Nat → Option ErrorCode`
where `op k` is the outcome of its k-th invocation within one
`executeWithRetry` call (`none` = the promise resolves, `some e` = it
rejects and `extractErrorCode` classifies the thrown error as `e`). -/

/-- Result record returned by `executeWithRetry` (the `error` field keeps
only the `AppError.code`). -/
structure RetryResult where
  success : Bool
  error : Option ErrorCode
  attempts : Nat
deriving DecidableEq, Repr

/-- Complete observable effect of one `executeWithRetry` call: the returned
result, the retry state left in the manager's map, how many times the
wrapped operation was invoked, and the sequence of backoff sleeps. -/
structure RetryExec where
  result : RetryResult
  finalState : RetryState
  calls : Nat
  delays : List Nat
deriving DecidableEq, Repr

/-- The `while (state.attempts <= RETRY_CONFIG.maxRetries)` loop of
`executeWithRetry`, with an explicit fuel parameter (the fallthrough
return after the loop doubles as the out-of-fuel result; fuel
`maxRetries + 1` is always sufficient because an iteration recurses only
when the incremented attempt count is still below `maxRetries`). -/
def retryLoop (op : Nat → Option ErrorCode) :
    Nat → Nat → Nat → Option ErrorCode → Bool → List Nat → RetryExec
  | 0, callIdx, attempts, lastErr, isRetr, delays =>
      { result := { success := false, error := some (lastErr.getD ErrorCode.API_ERROR),
                    attempts := attempts }
        finalState := { attempts := attempts, lastError := lastErr, isRetrying := isRetr }
        calls := callIdx
        delays := delays }
  | fuel + 1, callIdx, attempts, lastErr, isRetr, delays =>
      if attempts ≤ RETRY_CONFIG.maxRetries then
        match op callIdx with
        | none =>
            { result := { success := true, error := none, attempts := attempts + 1 }
              finalState := createRetryState
              calls := callIdx + 1
              delays := delays }
        | some e =>
            if isRetryableError e && decide (attempts + 1 < RETRY_CONFIG.maxRetries) then
              retryLoop op fuel (callIdx + 1) (attempts + 1) (some e) (decide (attempts > 0))
                (delays ++ [calculateRetryDelay (attempts + 1 - 1)])
            else
              { result := { success := false, error := some e, attempts := attempts + 1 }
                finalState := { attempts := attempts + 1, lastError := some e,
                                isRetrying := decide (attempts > 0) }
                calls := callIdx + 1
                delays := delays }
      else
        { result := { success := false, error := some (lastErr.getD ErrorCode.API_ERROR),
                      attempts := attempts }
          finalState := { attempts := attempts, lastError := lastErr, isRetrying := isRetr }
          calls := callIdx
          delays := delays }

/-- `RetryManager.executeWithRetry`, started on the retry state currently
stored for the operation id. -/
def executeWithRetry (state : RetryState) (op : Nat → Option ErrorCode) : RetryExec :=
  retryLoop op (RETRY_CONFIG.maxRetries + 1) 0 state.attempts state.lastError
    state.isRetrying []

/-- `RetryManager.resetState` stores a fresh state. -/
def resetState : RetryState := createRetryState

/-! ## GoogleDriveService.handleApiError (server/src/services/googleDrive.ts) -/

/-- The classified form of a `GoogleDriveError` (code and HTTP status). -/
structure GoogleDriveErrorRec where
  code : ErrorCode
  statusCode : Nat
deriving DecidableEq, Repr

/-- `handleApiError`: classify an upstream gaxios error from its numeric
`code` (HTTP status, falsy → 500) and the first error `reason`. -/
def handleApiError (code : Option Nat) (reason : Option String) : GoogleDriveErrorRec :=
  let statusCode := match code with
    | some c => if c = 0 then 500 else c
    | none => 500
  if statusCode = 404 then
    { code := ErrorCode.FILE_NOT_FOUND, statusCode := 404 }
  else if statusCode = 403 then
    if reason = some "userRateLimitExceeded" || reason = some "rateLimitExceeded" then
      { code := ErrorCode.QUOTA_EXCEEDED, statusCode := 429 }
    else
      { code := ErrorCode.ACCESS_DENIED, statusCode := 403 }
  else if statusCode = 401 then
    { code := ErrorCode.ACCESS_DENIED, statusCode := 401 }
  else
    { code := ErrorCode.API_ERROR, statusCode := statusCode }

/-! ## LinkParserService (src/services/linkParser.ts)

URLs are embedded as `List Char`. JavaScript's `String.prototype.trim`
is modelled over the whitespace characters it strips (ASCII whitespace,
NBSP, BOM, and the line/paragraph separators). The three anchored regular
expressions `^https?:\/\/drive\.google\.com\/...([a-zA-Z0-9_-]+)` are
compiled to literal-matchers followed by a greedy `takeWhile` capture. -/

/-- The regex character class `[a-zA-Z0-9_-]`. -/
def idChar (c : Char) : Bool :=
  c.isAlpha || c.isDigit || c = '_' || c = '-'

/-- Whitespace stripped by JavaScript `trim`. -/
def jsWhitespace (c : Char) : Bool :=
  c = ' ' || c = '\t' || c = '\n' || c = '\r' || c = '\x0b' || c = '\x0c' ||
  c = '\u00A0' || c = '\uFEFF' || c = '\u2028' || c = '\u2029'

/-- JavaScript `String.prototype.trim`. -/
def jsTrim (cs : List Char) : List Char :=
  ((cs.dropWhile jsWhitespace).reverse.dropWhile jsWhitespace).reverse

/-- Consume an exact literal at the start of the input, returning the
remainder. -/
def afterLit : List Char → List Char → Option (List Char)
  | [], cs => some cs
  | _ :: _, [] => none
  | p :: ps, c :: cs => if c = p then afterLit ps cs else none

/-- The regex alternative `https?:\/\/`: strip `https://` or `http://`. -/
def afterScheme (cs : List Char) : Option (List Char) :=
  match afterLit "https://".toList cs with
  | some rest => some rest
  | none => afterLit "http://".toList cs

/-- Greedy capture of `([a-zA-Z0-9_-]+)`: the maximal leading run of id
characters, failing if it is empty. -/
def captureId (body : List Char) : Option (List Char) :=
  let captured := body.takeWhile idChar
  if captured.isEmpty then none else some captured

/-- Match `^https?:\/\/` followed by the given host-and-path literal and a
nonempty id capture; trailing input is unconstrained (the patterns are not
end-anchored). -/
def matchPattern (path : List Char) (cs : List Char) : Option (List Char) :=
  match afterScheme cs with
  | none => none
  | some rest =>
    match afterLit path rest with
    | none => none
    | some body => captureId body

/-- `FILE_D_PATTERN`: `^https?:\/\/drive\.google\.com\/file\/d\/([a-zA-Z0-9_-]+)`. -/
def fileDMatch (cs : List Char) : Option (List Char) :=
  matchPattern "drive.google.com/file/d/".toList cs

/-- `OPEN_ID_PATTERN`: `^https?:\/\/drive\.google\.com\/open\?id=([a-zA-Z0-9_-]+)`. -/
def openIdMatch (cs : List Char) : Option (List Char) :=
  matchPattern "drive.google.com/open?id=".toList cs

/-- `FOLDER_PATTERN`: `^https?:\/\/drive\.google\.com\/drive\/folders\/([a-zA-Z0-9_-]+)`. -/
def folderMatch (cs : List Char) : Option (List Char) :=
  matchPattern "drive.google.com/drive/folders/".toList cs

/-- `ParsedLink.type` values. -/
inductive LinkType where
  | file
  | folder
deriving DecidableEq, Repr

/-- `ParsedLink` from src/types. -/
structure ParsedLink where
  type : LinkType
  id : List Char
  originalUrl : List Char
deriving DecidableEq, Repr

/-- `LinkParserService.isValidGoogleDriveUrl`: falsy/empty input is
rejected, the trimmed input must match the host-anchor regex
`^https?:\/\/drive\.google\.com\//` and one of the three patterns. -/
def isValidGoogleDriveUrl (url : List Char) : Bool :=
  if url = [] then false
  else
    let trimmedUrl := jsTrim url
    match afterScheme trimmedUrl with
    | none => false
    | some rest =>
      match afterLit "drive.google.com/".toList rest with
      | none => false
      | some _ =>
        (fileDMatch trimmedUrl).isSome || (openIdMatch trimmedUrl).isSome ||
          (folderMatch trimmedUrl).isSome

/-- `LinkParserService.extractFileId`: try `FILE_D_PATTERN`, then
`OPEN_ID_PATTERN`. -/
def extractFileId (url : List Char) : Option (List Char) :=
  if url = [] then none
  else
    let trimmedUrl := jsTrim url
    match fileDMatch trimmedUrl with
    | some captured => some captured
    | none => openIdMatch trimmedUrl

/-- `LinkParserService.extractFolderId`. -/
def extractFolderId (url : List Char) : Option (List Char) :=
  if url = [] then none
  else folderMatch (jsTrim url)

/-- `LinkParserService.parse`. -/
def parse (url : List Char) : Option ParsedLink :=
  if url = [] then none
  else
    let trimmedUrl := jsTrim url
    if isValidGoogleDriveUrl trimmedUrl then
      match extractFileId trimmedUrl with
      | some fileId => some { type := LinkType.file, id := fileId, originalUrl := trimmedUrl }
      | none =>
        match extractFolderId trimmedUrl with
        | some folderId =>
            some { type := LinkType.folder, id := folderId, originalUrl := trimmedUrl }
        | none => none
    else none

/-- `LinkParserService.reconstructUrl`: always the canonical
`file/d/{id}/view` or `drive/folders/{id}` form. -/
def reconstructUrl (parsedLink : ParsedLink) : List Char :=
  match parsedLink.type with
  | LinkType.file =>
      "https://drive.google.com/file/d/".toList ++ parsedLink.id ++ "/view".toList
  | LinkType.folder =>
      "https://drive.google.com/drive/folders/".toList ++ parsedLink.id

/-! ## Token middleware (server/src/middleware/auth.ts, services/oauth.ts)

The express session is embedded as a record of optional fields (a missing
field is `none`; `delete` sets it to `none`). Timestamps are epoch
milliseconds as `Int`. The upstream token-exchange call made by
`attemptTokenRefresh` is modelled by an `outcome` argument: `some` new
tokens when `oauthService.refreshAccessToken` resolves, `none` when it
rejects. -/

/-- The token fields stored on `req.session`. -/
structure SessionData where
  accessToken : Option String
  refreshToken : Option String
  expiresAt : Option Int
  user : Option String
  userId : Option String
deriving DecidableEq, Repr

/-- `clearAuthSession`: delete all five auth fields. -/
def clearAuthSession (_ : SessionData) : SessionData :=
  { accessToken := none, refreshToken := none, expiresAt := none,
    user := none, userId := none }

/-- `OAuthService.isTokenExpired`: `Date.now() >= expiresAt - bufferTime`
with a 5-minute buffer. -/
def isTokenExpired (now expiresAt : Int) : Bool :=
  let bufferTime : Int := 5 * 60 * 1000
  now ≥ expiresAt - bufferTime

/-- New tokens returned by a successful `refreshAccessToken` call. -/
structure RefreshedTokens where
  accessToken : String
  refreshToken : String
  expiresAt : Int
deriving DecidableEq, Repr

/-- Observable outcome of `extractUserToken`: the session it leaves
behind, the `req.accessToken` it hands to downstream handlers, and
whether it invoked the upstream refresh call. -/
structure ExtractResult where
  session : SessionData
  reqAccessToken : Option String
  refreshAttempted : Bool
deriving DecidableEq, Repr

/-- `attemptTokenRefresh`: returns `(new session, token handed back,
upstream refresh call made)`. The guard `if (!refreshToken)` keeps
JavaScript falsiness (an absent or empty refresh token fails without
calling the OAuth service); on success it overwrites the three token
fields; on rejection it leaves the session to the caller's failure
branch. -/
def attemptTokenRefresh (sess : SessionData) (outcome : Option RefreshedTokens) :
    SessionData × Option String × Bool :=
  match sess.refreshToken with
  | none => (sess, none, false)
  | some refreshToken =>
    if refreshToken = "" then (sess, none, false)
    else
      match outcome with
      | some tokens =>
          ({ sess with accessToken := some tokens.accessToken,
                       refreshToken := some tokens.refreshToken,
                       expiresAt := some tokens.expiresAt },
           some tokens.accessToken, true)
      | none => (sess, none, true)

/-- `extractUserToken` middleware. All the guards keep JavaScript
falsiness: an absent or empty access token skips authentication, an
absent or zero `expiresAt` skips the refresh branch and hands the stored
token back, an absent or empty refresh token clears the session instead
of refreshing, and an empty refreshed access token counts as a failed
refresh. -/
def extractUserToken (sess : SessionData) (now : Int) (outcome : Option RefreshedTokens) :
    ExtractResult :=
  match sess.accessToken with
  | none => { session := sess, reqAccessToken := none, refreshAttempted := false }
  | some accessToken =>
    if accessToken = "" then
      { session := sess, reqAccessToken := none, refreshAttempted := false }
    else
      let expiredGuard := match sess.expiresAt with
        | none => false
        | some e => if e = 0 then false else isTokenExpired now e
      if expiredGuard then
        match sess.refreshToken with
        | some refreshToken =>
          if refreshToken = "" then
            { session := clearAuthSession sess, reqAccessToken := none,
              refreshAttempted := false }
          else
            let refreshResult := attemptTokenRefresh sess outcome
            match refreshResult.2.1 with
            | some newToken =>
                if newToken = "" then
                  { session := clearAuthSession refreshResult.1, reqAccessToken := none,
                    refreshAttempted := refreshResult.2.2 }
                else
                  { session := refreshResult.1, reqAccessToken := some newToken,
                    refreshAttempted := refreshResult.2.2 }
            | none =>
                { session := clearAuthSession refreshResult.1, reqAccessToken := none,
                  refreshAttempted := refreshResult.2.2 }
        | none =>
          { session := clearAuthSession sess, reqAccessToken := none,
            refreshAttempted := false }
      else
        { session := sess, reqAccessToken := some accessToken,
          refreshAttempted := false }

/-- The `POST /auth/logout` route: `req.session.destroy` removes the whole
session, so every auth field is absent afterwards (upstream revocation is
best-effort and does not affect the local clearing). -/
def logoutSession (_ : SessionData) : SessionData :=
  { accessToken := none, refreshToken := none, expiresAt := none,
    user := none, userId := none }

/-! ## App store download state (src/store/useAppStore.ts)

The `downloads: Map<string, DownloadProgress>` is embedded as an
insertion-ordered association list with JS `Map` get/set semantics.
JS numbers (progress, speed) are abstracted as `ℚ`. -/

/-- `DownloadProgress['status']`. -/
inductive DownloadStatus where
  | pending
  | downloading
  | completed
  | failed
  | cancelled
deriving DecidableEq, Repr

/-- `DownloadProgress` from src/types. -/
structure DownloadProgress where
  fileId : String
  fileName : String
  progress : ℚ
  speed : ℚ
  status : DownloadStatus
  error : Option String
  fileSize : Option ℚ
deriving DecidableEq, Repr

/-- JS `Map.prototype.get`. -/
def mapGet (m : List (String × DownloadProgress)) (k : String) : Option DownloadProgress :=
  match m with
  | [] => none
  | (k', v) :: rest => if k' = k then some v else mapGet rest k

/-- JS `Map.prototype.set`: replace in place if the key exists, else
append. -/
def mapSet (m : List (String × DownloadProgress)) (k : String) (v : DownloadProgress) :
    List (String × DownloadProgress) :=
  match m with
  | [] => [(k, v)]
  | (k', v') :: rest => if k' = k then (k, v) :: rest else (k', v') :: mapSet rest k v

/-- The store's `retryDownload` action: only a tracked download whose
status is `failed` or `cancelled` is reset to a pending entry with zeroed
progress/speed and cleared error; otherwise the map is untouched. -/
def retryDownload (downloads : List (String × DownloadProgress)) (fileId : String) :
    List (String × DownloadProgress) :=
  match mapGet downloads fileId with
  | some download =>
    if download.status = DownloadStatus.failed ∨
        download.status = DownloadStatus.cancelled then
      mapSet downloads fileId
        { download with progress := 0, speed := 0,
                        status := DownloadStatus.pending, error := none }
    else downloads
  | none => downloads

/-- The store's `calculateFolderProgress` action: `0` for an empty id
list, else the fold of tracked progress values divided by the id count
(an untracked id contributes nothing to the sum). -/
def calculateFolderProgress (downloads : List (String × DownloadProgress))
    (fileIds : List String) : ℚ :=
  if fileIds.length = 0 then 0
  else
    let totalProgress := fileIds.foldl
      (fun acc fileId =>
        match mapGet downloads fileId with
        | some download => acc + download.progress
        | none => acc) 0
    totalProgress / (fileIds.length : ℚ)

/-! ## Spec-side shape definitions and declarative pattern characterization

`specAcceptedShape` follows the specification's words for the three
accepted locator shapes (§4.1 / claim C4): `.../file/d/{id}/view[?...]`,
`.../open?id={id}[&...]`, `.../folders/{id}[?...]` with explicit
`http`/`https` scheme and exact host. It exists to be compared against
the code's `parse`; it is not part of the embedded program.
`patternShape` is the declarative form of what the code's prefix-anchored
regular expressions actually accept. -/

/-- A shape tail is either the end of the string or a query/param part
starting with the given character. -/
def tailAllows (first : Char) (rest : List Char) : Bool :=
  match rest with
  | [] => true
  | c :: _ => c = first

/-- Modelled from the spec: one accepted shape — scheme, host-and-path
literal, a nonempty id, a required literal after the id (`/view` for the
`file/d` shape, empty otherwise), then nothing or a tail starting with
the query/param character. -/
def specShapeAt (path viewPart : List Char) (tailStart : Char) (cs : List Char) : Bool :=
  match afterScheme cs with
  | none => false
  | some rest =>
    match afterLit path rest with
    | none => false
    | some body =>
      let capturedId := body.takeWhile idChar
      let afterId := body.dropWhile idChar
      if capturedId.isEmpty then false
      else
        match afterLit viewPart afterId with
        | none => false
        | some t => tailAllows tailStart t

/-- Modelled from the spec: the union of the three accepted shapes of
claim C4 — `file/d/{id}/view[?...]`, `open?id={id}[&...]`,
`drive/folders/{id}[?...]`. -/
def specAcceptedShape (cs : List Char) : Bool :=
  specShapeAt "drive.google.com/file/d/".toList "/view".toList '?' cs ||
  specShapeAt "drive.google.com/open?id=".toList [] '&' cs ||
  specShapeAt "drive.google.com/drive/folders/".toList [] '?' cs

/-- Declarative characterization of one prefix-anchored pattern of the
code: scheme, then the literal host-and-path, then a maximal nonempty run
of id characters; anything (or nothing) may follow. -/
def patternShape (path cs : List Char) : Prop :=
  ∃ pre capturedId rest,
    cs = pre ++ path ++ capturedId ++ rest ∧
    (pre = "https://".toList ∨ pre = "http://".toList) ∧
    capturedId ≠ [] ∧ (∀ c ∈ capturedId, idChar c = true) ∧
    (rest = [] ∨ ∃ c rs, rest = c :: rs ∧ idChar c = false)

/-! ## Concrete scenario inputs used by witnesses and counterexamples -/

/-- An operation that fails with a network error on every invocation. -/
def alwaysNetworkError : Nat → Option ErrorCode :=
  fun _ => some ErrorCode.NETWORK_ERROR

/-- A failed download entry used in store scenarios. -/
def failedTask : DownloadProgress :=
  { fileId := "abcdefghij", fileName := "report.pdf", progress := 37,
    speed := 0, status := DownloadStatus.failed,
    error := some "Download gagal.", fileSize := some 1024 }

/-- A completed download entry used in store scenarios. -/
def completedTask : DownloadProgress :=
  { fileId := "klmnopqrst", fileName := "photo.png", progress := 100,
    speed := 0, status := DownloadStatus.completed,
    error := none, fileSize := some 2048 }

/-- A store downloads map tracking one failed and one completed task. -/
def sampleDownloads : List (String × DownloadProgress) :=
  [("abcdefghij", failedTask), ("klmnopqrst", completedTask)]

/-! ## Helper lemmas: literal matching, runs, and trimming -/

theorem afterLit_self (lit X : List Char) : afterLit lit (lit ++ X) = some X := by
  induction lit with
  | nil => rfl
  | cons p ps ih => simp [afterLit, ih]

theorem afterLit_some {lit cs rest : List Char} (h : afterLit lit cs = some rest) :
    cs = lit ++ rest := by
  induction lit generalizing cs with
  | nil => simpa [afterLit] using h
  | cons p ps ih =>
    cases cs with
    | nil => simp [afterLit] at h
    | cons c cs' =>
      by_cases hc : c = p
      · subst hc
        simp only [afterLit, if_pos rfl] at h
        simp [ih h]
      · simp [afterLit, hc] at h

theorem afterScheme_some {cs r : List Char} (h : afterScheme cs = some r) :
    cs = "https://".toList ++ r ∨ cs = "http://".toList ++ r := by
  unfold afterScheme at h
  cases hh : afterLit "https://".toList cs with
  | some rest => rw [hh] at h; exact Or.inl (by simpa [← Option.some_inj.mp h] using afterLit_some hh)
  | none => rw [hh] at h; exact Or.inr (afterLit_some h)

theorem dropWhile_head_false {p : Char → Bool} {l : List Char} {c : Char} {rest : List Char}
    (h : l.dropWhile p = c :: rest) : p c = false := by
  induction l with
  | nil => simp [List.dropWhile] at h
  | cons a t ih =>
    by_cases ha : p a
    · rw [List.dropWhile_cons, if_pos ha] at h; exact ih h
    · rw [List.dropWhile_cons, if_neg ha] at h
      obtain ⟨rfl, -⟩ := List.cons.inj h
      simpa using ha

theorem dropWhile_suffix (p : Char → Bool) (l : List Char) :
    ∃ t, l = t ++ l.dropWhile p := by
  induction l with
  | nil => exact ⟨[], rfl⟩
  | cons a t ih =>
    by_cases ha : p a
    · obtain ⟨u, hu⟩ := ih
      exact ⟨a :: u, by rw [List.dropWhile_cons, if_pos ha]; simpa using hu⟩
    · exact ⟨[], by rw [List.dropWhile_cons, if_neg ha]; simp⟩

theorem takeWhile_run {p : Char → Bool} {capturedId rest : List Char}
    (h1 : ∀ c ∈ capturedId, p c = true)
    (h2 : rest = [] ∨ ∃ c rs, rest = c :: rs ∧ p c = false) :
    (capturedId ++ rest).takeWhile p = capturedId ∧
      (capturedId ++ rest).dropWhile p = rest := by
  induction capturedId with
  | nil =>
    rcases h2 with rfl | ⟨c, rs, rfl, hc⟩
    · simp
    · simp [List.takeWhile_cons, List.dropWhile_cons, hc]
  | cons a t ih =>
    have ha : p a = true := h1 a (by simp)
    have ih' := ih (fun c hc => h1 c (by simp [hc]))
    simp only [List.cons_append, List.takeWhile_cons, List.dropWhile_cons, ha, if_pos]
    exact ⟨by rw [ih'.1], by rw [ih'.2]⟩

theorem dropWhile_eq_self_of_head {p : Char → Bool} {l : List Char}
    (h : ∀ c, l.head? = some c → p c = false) : l.dropWhile p = l := by
  cases l with
  | nil => rfl
  | cons a t => rw [List.dropWhile_cons, if_neg (by simp [h a rfl])]

theorem jsTrim_eq_self {cs : List Char}
    (h1 : ∀ c, cs.head? = some c → jsWhitespace c = false)
    (h2 : ∀ c, cs.getLast? = some c → jsWhitespace c = false) : jsTrim cs = cs := by
  unfold jsTrim
  rw [dropWhile_eq_self_of_head h1]
  rw [dropWhile_eq_self_of_head (by simpa [List.head?_reverse] using h2)]
  exact List.reverse_reverse cs

theorem jsTrim_head_last (cs : List Char) :
    (∀ c, (jsTrim cs).head? = some c → jsWhitespace c = false) ∧
      (∀ c, (jsTrim cs).getLast? = some c → jsWhitespace c = false) := by
  unfold jsTrim
  set A := cs.dropWhile jsWhitespace with hA
  set B := A.reverse.dropWhile jsWhitespace with hB
  constructor
  · intro c hc
    rw [List.head?_reverse] at hc
    obtain ⟨t, ht⟩ := dropWhile_suffix jsWhitespace A.reverse
    rw [← hB] at ht
    cases hBc : B with
    | nil => rw [hBc] at hc; simp at hc
    | cons b bs =>
      have hlast : B.getLast? = A.reverse.getLast? := by
        rw [ht, List.getLast?_append_of_ne_nil t (by simp [hBc])]
      rw [hlast, List.getLast?_reverse] at hc
      cases hAc : A with
      | nil => rw [hAc] at hc; simp at hc
      | cons a as =>
        rw [hAc] at hc
        simp only [List.head?_cons, Option.some_inj] at hc
        subst hc
        exact dropWhile_head_false (hA ▸ hAc)
  · intro c hc
    rw [List.getLast?_reverse] at hc
    cases hBc : B with
    | nil => rw [hBc] at hc; simp at hc
    | cons b bs =>
      rw [hBc] at hc
      simp only [List.head?_cons, Option.some_inj] at hc
      subst hc
      exact dropWhile_head_false (hB ▸ hBc)

theorem jsTrim_idem (cs : List Char) : jsTrim (jsTrim cs) = jsTrim cs :=
  jsTrim_eq_self (jsTrim_head_last cs).1 (jsTrim_head_last cs).2

theorem idChar_not_ws {c : Char} (h : idChar c = true) : jsWhitespace c = false := by
  unfold jsWhitespace
  simp only [Bool.or_eq_false_iff, decide_eq_false_iff_not]
  refine ⟨⟨⟨⟨⟨⟨⟨⟨⟨?_, ?_⟩, ?_⟩, ?_⟩, ?_⟩, ?_⟩, ?_⟩, ?_⟩, ?_⟩, ?_⟩ <;>
    rintro rfl <;> simp [idChar] at h

/-! ## Helper lemmas: pattern matchers -/

theorem captureId_some {body capturedId : List Char} (h : captureId body = some capturedId) :
    capturedId = body.takeWhile idChar ∧ capturedId ≠ [] := by
  unfold captureId at h
  by_cases he : (body.takeWhile idChar).isEmpty
  · simp [he] at h
  · simp only [he, Bool.false_eq_true, if_false, Option.some_inj] at h
    subst h
    exact ⟨rfl, by simpa [List.isEmpty_iff] using he⟩

theorem captureId_run {capturedId rest : List Char} (hne : capturedId ≠ [])
    (hall : ∀ c ∈ capturedId, idChar c = true)
    (hrest : rest = [] ∨ ∃ c rs, rest = c :: rs ∧ idChar c = false) :
    captureId (capturedId ++ rest) = some capturedId := by
  have hrun := takeWhile_run hall hrest
  unfold captureId
  rw [hrun.1]
  simp [List.isEmpty_iff, hne]

theorem afterScheme_https (X : List Char) :
    afterScheme ("https://".toList ++ X) = some X := by
  unfold afterScheme
  rw [afterLit_self]

theorem afterScheme_http (X : List Char) :
    afterScheme ("http://".toList ++ X) = some X := by
  unfold afterScheme
  rw [show afterLit "https://".toList ("http://".toList ++ X) = none from rfl,
    afterLit_self]

theorem matchPattern_some {path cs capturedId : List Char}
    (h : matchPattern path cs = some capturedId) : patternShape path cs := by
  cases hs : afterScheme cs with
  | none =>
    simp only [matchPattern, hs] at h
    exact absurd h (by simp)
  | some rest =>
    simp only [matchPattern, hs] at h
    cases hl : afterLit path rest with
    | none =>
      simp only [hl] at h
      exact absurd h (by simp)
    | some body =>
      simp only [hl] at h
      obtain ⟨hid, hne⟩ := captureId_some h
      have hbody : body = capturedId ++ body.dropWhile idChar := by
        rw [hid]; exact (List.takeWhile_append_dropWhile idChar body).symm
      have hpre := afterScheme_some hs
      have hrest' : rest = path ++ body := afterLit_some hl
      have hmem : ∀ c ∈ capturedId, idChar c = true := fun c hc =>
        List.mem_takeWhile_imp (hid ▸ hc)
      have htail : body.dropWhile idChar = [] ∨
          ∃ c rs, body.dropWhile idChar = c :: rs ∧ idChar c = false := by
        cases hd : body.dropWhile idChar with
        | nil => exact Or.inl rfl
        | cons c rs => exact Or.inr ⟨c, rs, rfl, dropWhile_head_false hd⟩
      rcases hpre with hcs | hcs
      · have hgoal : cs = "https://".toList ++ path ++ capturedId ++
            List.dropWhile idChar body := by
          rw [hcs, hrest']
          conv_lhs => rw [hbody]
          simp [List.append_assoc]
        exact ⟨_, capturedId, _, hgoal, Or.inl rfl, hne, hmem, htail⟩
      · have hgoal : cs = "http://".toList ++ path ++ capturedId ++
            List.dropWhile idChar body := by
          rw [hcs, hrest']
          conv_lhs => rw [hbody]
          simp [List.append_assoc]
        exact ⟨_, capturedId, _, hgoal, Or.inr rfl, hne, hmem, htail⟩

theorem matchPattern_build {path pre capturedId rest : List Char}
    (hpre : pre = "https://".toList ∨ pre = "http://".toList)
    (hne : capturedId ≠ []) (hall : ∀ c ∈ capturedId, idChar c = true)
    (hrest : rest = [] ∨ ∃ c rs, rest = c :: rs ∧ idChar c = false) :
    matchPattern path (pre ++ path ++ capturedId ++ rest) = some capturedId := by
  have hcap := captureId_run hne hall hrest
  have hassoc : pre ++ path ++ capturedId ++ rest =
      pre ++ (path ++ (capturedId ++ rest)) := by simp [List.append_assoc]
  have hscheme : afterScheme (pre ++ (path ++ (capturedId ++ rest))) =
      some (path ++ (capturedId ++ rest)) := by
    rcases hpre with rfl | rfl
    · exact afterScheme_https _
    · exact afterScheme_http _
  rw [hassoc]
  simp only [matchPattern, hscheme, afterLit_self, hcap]

theorem matchPattern_isSome_iff (path cs : List Char) :
    (matchPattern path cs).isSome = true ↔ patternShape path cs := by
  constructor
  · intro h
    obtain ⟨capturedId, hc⟩ := Option.isSome_iff_exists.mp h
    exact matchPattern_some hc
  · rintro ⟨pre, capturedId, rest, rfl, hpre, hne, hall, hrest⟩
    rw [matchPattern_build hpre hne hall hrest]
    rfl

/-! ## Helper lemmas: parse and isValidGoogleDriveUrl -/

theorem afterLit_append (a b X : List Char) :
    afterLit (a ++ b) X =
      match afterLit a X with
      | none => none
      | some r => afterLit b r := by
  induction a generalizing X with
  | nil => simp [afterLit]
  | cons p ps ih =>
    cases X with
    | nil => simp [afterLit]
    | cons c cs =>
      by_cases hc : c = p
      · simp only [List.cons_append, afterLit, if_pos hc]
        exact ih cs
      · simp [afterLit, hc]

theorem matchPattern_none_of_noScheme {cs : List Char} (path : List Char)
    (h : afterScheme cs = none) : matchPattern path cs = none := by
  simp [matchPattern, h]

theorem matchPattern_nil (path : List Char) : matchPattern path [] = none :=
  matchPattern_none_of_noScheme path rfl

theorem matchPattern_none_of_noHost {cs X tail : List Char}
    (hs : afterScheme cs = some X)
    (hh : afterLit "drive.google.com/".toList X = none) :
    matchPattern ("drive.google.com/".toList ++ tail) cs = none := by
  have key : afterLit ("drive.google.com/".toList ++ tail) X = none := by
    rw [afterLit_append, hh]
  simp only [matchPattern, hs, key]

theorem isValid_eq_matchers {t : List Char} (hne : t ≠ []) (htrim : jsTrim t = t) :
    isValidGoogleDriveUrl t =
      ((fileDMatch t).isSome || (openIdMatch t).isSome || (folderMatch t).isSome) := by
  simp only [isValidGoogleDriveUrl, if_neg hne, htrim]
  cases hs : afterScheme t with
  | none =>
    rw [fileDMatch, openIdMatch, folderMatch]
    rw [matchPattern_none_of_noScheme _ hs, matchPattern_none_of_noScheme _ hs,
      matchPattern_none_of_noScheme _ hs]
    rfl
  | some X =>
    cases hh : afterLit "drive.google.com/".toList X with
    | none =>
      have h1 : fileDMatch t = none := by
        rw [fileDMatch, show "drive.google.com/file/d/".toList =
          "drive.google.com/".toList ++ "file/d/".toList from by decide]
        exact matchPattern_none_of_noHost hs hh
      have h2 : openIdMatch t = none := by
        rw [openIdMatch, show "drive.google.com/open?id=".toList =
          "drive.google.com/".toList ++ "open?id=".toList from by decide]
        exact matchPattern_none_of_noHost hs hh
      have h3 : folderMatch t = none := by
        rw [folderMatch, show "drive.google.com/drive/folders/".toList =
          "drive.google.com/".toList ++ "drive/folders/".toList from by decide]
        exact matchPattern_none_of_noHost hs hh
      simp only [hs, hh, h1, h2, h3, Option.isSome_none]
      rfl
    | some Y =>
      simp only [hs, hh]

theorem parse_of_fileDMatch {s capturedId : List Char} (hne : s ≠ [])
    (htrim : jsTrim s = s) (hfd : fileDMatch s = some capturedId) :
    parse s = some { type := LinkType.file, id := capturedId, originalUrl := s } := by
  have hvalid : isValidGoogleDriveUrl s = true := by
    rw [isValid_eq_matchers hne htrim, hfd]
    rfl
  have hext : extractFileId s = some capturedId := by
    simp only [extractFileId, if_neg hne, htrim, hfd]
  simp only [parse, if_neg hne, htrim, hvalid, if_true, hext]

theorem parse_of_openIdMatch {s capturedId : List Char} (hne : s ≠ [])
    (htrim : jsTrim s = s) (hfd : fileDMatch s = none)
    (hop : openIdMatch s = some capturedId) :
    parse s = some { type := LinkType.file, id := capturedId, originalUrl := s } := by
  have hvalid : isValidGoogleDriveUrl s = true := by
    rw [isValid_eq_matchers hne htrim, hop]
    simp
  have hext : extractFileId s = some capturedId := by
    simp only [extractFileId, if_neg hne, htrim, hfd, hop]
  simp only [parse, if_neg hne, htrim, hvalid, if_true, hext]

theorem parse_of_folderMatch {s capturedId : List Char} (hne : s ≠ [])
    (htrim : jsTrim s = s) (hfd : fileDMatch s = none) (hop : openIdMatch s = none)
    (hfo : folderMatch s = some capturedId) :
    parse s = some { type := LinkType.folder, id := capturedId, originalUrl := s } := by
  have hvalid : isValidGoogleDriveUrl s = true := by
    rw [isValid_eq_matchers hne htrim, hfo]
    simp
  have hext : extractFileId s = none := by
    simp only [extractFileId, if_neg hne, htrim, hfd, hop]
  have hext2 : extractFolderId s = some capturedId := by
    simp only [extractFolderId, if_neg hne, htrim, hfo]
  simp only [parse, if_neg hne, htrim, hvalid, if_true, hext, hext2]

theorem parse_isSome_eq_matchers {t : List Char} (hne : t ≠ []) (htrim : jsTrim t = t) :
    (parse t).isSome =
      ((fileDMatch t).isSome || (openIdMatch t).isSome || (folderMatch t).isSome) := by
  cases hfd : fileDMatch t with
  | some capturedId => rw [parse_of_fileDMatch hne htrim hfd]; simp
  | none =>
    cases hop : openIdMatch t with
    | some capturedId => rw [parse_of_openIdMatch hne htrim hfd hop]; simp
    | none =>
      cases hfo : folderMatch t with
      | some capturedId => rw [parse_of_folderMatch hne htrim hfd hop hfo]; simp
      | none =>
        have hvalid : isValidGoogleDriveUrl t = false := by
          rw [isValid_eq_matchers hne htrim, hfd, hop, hfo]
          rfl
        simp only [parse, if_neg hne, htrim, hvalid, if_false, hfd, hop, hfo]
        rfl

theorem parse_trim {s : List Char} (hne : s ≠ []) : parse s = parse (jsTrim s) := by
  by_cases ht : jsTrim s = []
  · simp only [parse, if_neg hne, ht]
    rfl
  · have hidem := jsTrim_idem s
    simp only [parse, if_neg hne, if_neg ht, hidem]

theorem isValid_trim {s : List Char} (hne : s ≠ []) :
    isValidGoogleDriveUrl s = isValidGoogleDriveUrl (jsTrim s) := by
  by_cases ht : jsTrim s = []
  · simp only [isValidGoogleDriveUrl, if_neg hne, ht]
    rfl
  · simp only [isValidGoogleDriveUrl, if_neg hne, if_neg ht, jsTrim_idem]

theorem matchPattern_id {path cs capturedId : List Char}
    (h : matchPattern path cs = some capturedId) :
    capturedId ≠ [] ∧ ∀ c ∈ capturedId, idChar c = true := by
  cases hs : afterScheme cs with
  | none =>
    simp only [matchPattern, hs] at h
    exact absurd h (by simp)
  | some rest =>
    simp only [matchPattern, hs] at h
    cases hl : afterLit path rest with
    | none =>
      simp only [hl] at h
      exact absurd h (by simp)
    | some body =>
      simp only [hl] at h
      obtain ⟨hid, hne⟩ := captureId_some h
      exact ⟨hne, fun c hc => List.mem_takeWhile_imp (hid ▸ hc)⟩

theorem parse_some_inv {u : List Char} {ref : ParsedLink} (h : parse u = some ref) :
    ref.id ≠ [] ∧ ∀ c ∈ ref.id, idChar c = true := by
  by_cases hu : u = []
  · rw [hu] at h
    exact absurd h (by simp [parse])
  · simp only [parse, if_neg hu] at h
    by_cases hv : isValidGoogleDriveUrl (jsTrim u) = true
    · rw [if_pos hv] at h
      by_cases htne : jsTrim u = []
      · rw [htne] at h
        simp [extractFileId, extractFolderId] at h
      · cases he : extractFileId (jsTrim u) with
        | some fid =>
          rw [he] at h
          obtain rfl := Option.some_inj.mp h
          simp only [extractFileId, if_neg htne, jsTrim_idem] at he
          cases hfd : fileDMatch (jsTrim u) with
          | some x =>
            rw [hfd] at he
            obtain rfl := Option.some_inj.mp he
            exact matchPattern_id hfd
          | none =>
            rw [hfd] at he
            exact matchPattern_id he
        | none =>
          rw [he] at h
          cases hfo : extractFolderId (jsTrim u) with
          | some gid =>
            rw [hfo] at h
            obtain rfl := Option.some_inj.mp h
            simp only [extractFolderId, if_neg htne, jsTrim_idem] at hfo
            exact matchPattern_id hfo
          | none =>
            rw [hfo] at h
            exact absurd h (by simp)
    · rw [if_neg hv] at h
      exact absurd h (by simp)

theorem parse_file_canonical {capturedId : List Char} (hne : capturedId ≠ [])
    (hall : ∀ c ∈ capturedId, idChar c = true) :
    parse ("https://drive.google.com/file/d/".toList ++ capturedId ++ "/view".toList) =
      some { type := LinkType.file, id := capturedId,
             originalUrl :=
               "https://drive.google.com/file/d/".toList ++ capturedId ++ "/view".toList } := by
  have hu_ne :
      "https://drive.google.com/file/d/".toList ++ capturedId ++ "/view".toList ≠ [] := by
    simp only [ne_eq, List.append_eq_nil]
    rintro ⟨⟨h, -⟩, -⟩
    exact (by decide : ¬("https://drive.google.com/file/d/".toList = [])) h
  have hhead : ∀ c,
      ("https://drive.google.com/file/d/".toList ++ capturedId ++ "/view".toList).head? =
        some c → jsWhitespace c = false := by
    intro c hc
    rw [show ("https://drive.google.com/file/d/".toList ++ capturedId ++
      "/view".toList).head? = some 'h' from rfl] at hc
    injection hc with hc'
    rw [← hc']
    decide
  have hlast : ∀ c,
      ("https://drive.google.com/file/d/".toList ++ capturedId ++ "/view".toList).getLast? =
        some c → jsWhitespace c = false := by
    intro c hc
    rw [List.getLast?_append_of_ne_nil _ (by decide : "/view".toList ≠ [])] at hc
    rw [show "/view".toList.getLast? = some 'w' from rfl] at hc
    injection hc with hc'
    rw [← hc']
    decide
  have htrim := jsTrim_eq_self hhead hlast
  have hfd : fileDMatch
      ("https://drive.google.com/file/d/".toList ++ capturedId ++ "/view".toList) =
        some capturedId := by
    rw [fileDMatch, show "https://drive.google.com/file/d/".toList =
      "https://".toList ++ "drive.google.com/file/d/".toList from by decide]
    exact matchPattern_build (Or.inl rfl) hne hall
      (Or.inr ⟨'/', "view".toList, rfl, by decide⟩)
  exact parse_of_fileDMatch hu_ne htrim hfd

theorem parse_folder_canonical {capturedId : List Char} (hne : capturedId ≠ [])
    (hall : ∀ c ∈ capturedId, idChar c = true) :
    parse ("https://drive.google.com/drive/folders/".toList ++ capturedId) =
      some { type := LinkType.folder, id := capturedId,
             originalUrl := "https://drive.google.com/drive/folders/".toList ++ capturedId } := by
  have hu_ne : "https://drive.google.com/drive/folders/".toList ++ capturedId ≠ [] := by
    simp only [ne_eq, List.append_eq_nil]
    rintro ⟨h, -⟩
    exact (by decide : ¬("https://drive.google.com/drive/folders/".toList = [])) h
  have hhead : ∀ c,
      ("https://drive.google.com/drive/folders/".toList ++ capturedId).head? = some c →
        jsWhitespace c = false := by
    intro c hc
    rw [show ("https://drive.google.com/drive/folders/".toList ++ capturedId).head? =
      some 'h' from rfl] at hc
    injection hc with hc'
    rw [← hc']
    decide
  have hlast : ∀ c,
      ("https://drive.google.com/drive/folders/".toList ++ capturedId).getLast? = some c →
        jsWhitespace c = false := by
    intro c hc
    rw [List.getLast?_append_of_ne_nil _ hne] at hc
    obtain ⟨hcne, hceq⟩ := List.mem_getLast?_eq_getLast hc
    exact idChar_not_ws (hall c (hceq ▸ List.getLast_mem hcne))
  have htrim := jsTrim_eq_self hhead hlast
  have hfo : folderMatch ("https://drive.google.com/drive/folders/".toList ++ capturedId) =
      some capturedId := by
    rw [folderMatch, show "https://drive.google.com/drive/folders/".toList =
      "https://".toList ++ "drive.google.com/drive/folders/".toList from by decide]
    have hb := @matchPattern_build "drive.google.com/drive/folders/".toList
      "https://".toList capturedId [] (Or.inl rfl) hne hall (Or.inl rfl)
    rw [List.append_nil] at hb
    exact hb
  exact parse_of_folderMatch hu_ne htrim rfl rfl hfo

/-! ## Helper lemmas: the retry loop -/

theorem retryLoop_succ_success {op : Nat → Option ErrorCode}
    {fuel callIdx attempts : Nat} {lastErr : Option ErrorCode} {isRetr : Bool}
    {delays : List Nat} (hle : attempts ≤ RETRY_CONFIG.maxRetries)
    (hop : op callIdx = none) :
    retryLoop op (fuel + 1) callIdx attempts lastErr isRetr delays =
      { result := { success := true, error := none, attempts := attempts + 1 },
        finalState := createRetryState, calls := callIdx + 1, delays := delays } := by
  simp only [retryLoop, if_pos hle, hop]

theorem retryLoop_succ_retry {op : Nat → Option ErrorCode}
    {fuel callIdx attempts : Nat} {lastErr : Option ErrorCode} {isRetr : Bool}
    {delays : List Nat} {e : ErrorCode} (hle : attempts ≤ RETRY_CONFIG.maxRetries)
    (hop : op callIdx = some e) (hr : isRetryableError e = true)
    (hlt : attempts + 1 < RETRY_CONFIG.maxRetries) :
    retryLoop op (fuel + 1) callIdx attempts lastErr isRetr delays =
      retryLoop op fuel (callIdx + 1) (attempts + 1) (some e) (decide (attempts > 0))
        (delays ++ [calculateRetryDelay (attempts + 1 - 1)]) := by
  have hcond : (isRetryableError e &&
      decide (attempts + 1 < RETRY_CONFIG.maxRetries)) = true := by
    rw [hr]
    simpa using hlt
  simp only [retryLoop, if_pos hle, hop, hcond, if_true]

theorem retryLoop_succ_stop {op : Nat → Option ErrorCode}
    {fuel callIdx attempts : Nat} {lastErr : Option ErrorCode} {isRetr : Bool}
    {delays : List Nat} {e : ErrorCode} (hle : attempts ≤ RETRY_CONFIG.maxRetries)
    (hop : op callIdx = some e)
    (hcond : (isRetryableError e &&
      decide (attempts + 1 < RETRY_CONFIG.maxRetries)) = false) :
    retryLoop op (fuel + 1) callIdx attempts lastErr isRetr delays =
      { result := { success := false, error := some e, attempts := attempts + 1 },
        finalState := { attempts := attempts + 1, lastError := some e,
                        isRetrying := decide (attempts > 0) },
        calls := callIdx + 1, delays := delays } := by
  simp only [retryLoop, if_pos hle, hop, hcond]
  rw [if_neg Bool.false_ne_true]

theorem retryLoop_exhausted {op : Nat → Option ErrorCode}
    {fuel callIdx attempts : Nat} {lastErr : Option ErrorCode} {isRetr : Bool}
    {delays : List Nat} (hgt : ¬(attempts ≤ RETRY_CONFIG.maxRetries)) :
    retryLoop op (fuel + 1) callIdx attempts lastErr isRetr delays =
      { result := { success := false, error := some (lastErr.getD ErrorCode.API_ERROR),
                    attempts := attempts },
        finalState := { attempts := attempts, lastError := lastErr, isRetrying := isRetr },
        calls := callIdx, delays := delays } := by
  simp only [retryLoop, if_neg hgt]

theorem retryLoop_attempts_le (op : Nat → Option ErrorCode) :
    ∀ (fuel callIdx attempts : Nat) (lastErr : Option ErrorCode) (isRetr : Bool)
      (delays : List Nat),
      (retryLoop op fuel callIdx attempts lastErr isRetr delays).finalState.attempts ≤
        max attempts (RETRY_CONFIG.maxRetries + 1) := by
  intro fuel
  induction fuel with
  | zero =>
    intro callIdx attempts lastErr isRetr delays
    simp only [retryLoop]
    omega
  | succ n ih =>
    intro callIdx attempts lastErr isRetr delays
    by_cases hle : attempts ≤ RETRY_CONFIG.maxRetries
    · cases hop : op callIdx with
      | none =>
        rw [retryLoop_succ_success hle hop]
        simp [createRetryState]
      | some e =>
        by_cases hcond : (isRetryableError e &&
            decide (attempts + 1 < RETRY_CONFIG.maxRetries)) = true
        · have hlt : attempts + 1 < RETRY_CONFIG.maxRetries := by
            have := Bool.and_elim_right hcond
            simpa using this
          rw [retryLoop_succ_retry hle hop (Bool.and_elim_left hcond) hlt]
          have := ih (callIdx + 1) (attempts + 1) (some e) (decide (attempts > 0))
            (delays ++ [calculateRetryDelay (attempts + 1 - 1)])
          omega
        · rw [retryLoop_succ_stop hle hop (by simpa using hcond)]
          simp only []
          have h3 : RETRY_CONFIG.maxRetries = 3 := rfl
          omega
    · rw [retryLoop_exhausted hle]
      show attempts ≤ max attempts (RETRY_CONFIG.maxRetries + 1)
      exact Nat.le_max_left _ _

/-! ## Helper lemmas: the store map and progress fold -/

theorem mapGet_mapSet_self (m : List (String × DownloadProgress)) (k : String)
    (v : DownloadProgress) : mapGet (mapSet m k v) k = some v := by
  induction m with
  | nil => simp [mapGet, mapSet]
  | cons hd rest ih =>
    obtain ⟨k', v'⟩ := hd
    by_cases hk : k' = k
    · simp [mapSet, mapGet, hk]
    · simp only [mapSet, if_neg hk, mapGet, ih]

theorem mapGet_mapSet_other (m : List (String × DownloadProgress)) (k k2 : String)
    (v : DownloadProgress) (h : k2 ≠ k) :
    mapGet (mapSet m k v) k2 = mapGet m k2 := by
  induction m with
  | nil =>
    simp only [mapSet, mapGet]
    rw [if_neg (fun hk => h hk.symm)]
  | cons hd rest ih =>
    obtain ⟨k', v'⟩ := hd
    by_cases hk : k' = k
    · simp only [mapSet, if_pos hk, mapGet]
      rw [if_neg (fun hkk => h hkk.symm), if_neg (fun hkk => h (hk ▸ hkk).symm)]
    · simp only [mapSet, if_neg hk, mapGet, ih]

theorem foldl_progress (downloads : List (String × DownloadProgress)) :
    ∀ (ids : List String) (acc : ℚ),
      ids.foldl (fun acc fileId =>
        match mapGet downloads fileId with
        | some download => acc + download.progress
        | none => acc) acc =
      acc + (ids.map (fun fileId =>
        match mapGet downloads fileId with
        | some download => download.progress
        | none => 0)).sum := by
  intro ids
  induction ids with
  | nil => intro acc; simp
  | cons i t ih =>
    intro acc
    simp only [List.foldl_cons, List.map_cons, List.sum_cons]
    cases hmg : mapGet downloads i with
    | some d =>
      rw [ih (acc + d.progress)]
      ring
    | none =>
      rw [ih acc]
      ring

/-! ## Claim theorems -/

/-- C1: for an operation whose retry state is fresh (attempts = 0) and which
fails on every invocation with a retryable error kind (NetworkError or
DownloadFailed), `executeWithRetry` invokes the operation exactly
`maxRetries = 3` times total before returning a failure result, and the
backoff delays slept before attempts 2 and 3 are
`min(1000·2^(k-2), 10000)` ms, i.e. 1000 ms then 2000 ms. -/
theorem executeWithRetry_retryable_exhaustion (op : Nat → Option ErrorCode)
    (h : ∀ k, op k = some ErrorCode.NETWORK_ERROR ∨ op k = some ErrorCode.DOWNLOAD_FAILED) :
    (executeWithRetry createRetryState op).calls = RETRY_CONFIG.maxRetries ∧
    (executeWithRetry createRetryState op).result.success = false ∧
    (executeWithRetry createRetryState op).result.attempts = RETRY_CONFIG.maxRetries ∧
    (executeWithRetry createRetryState op).delays =
      [calculateRetryDelay 0, calculateRetryDelay 1] ∧
    (executeWithRetry createRetryState op).delays = [1000, 2000] := by
  have hk : ∀ k, ∃ e, op k = some e ∧ isRetryableError e = true := by
    intro k
    rcases h k with hk | hk
    · exact ⟨_, hk, rfl⟩
    · exact ⟨_, hk, rfl⟩
  obtain ⟨e0, hop0, hr0⟩ := hk 0
  obtain ⟨e1, hop1, hr1⟩ := hk 1
  obtain ⟨e2, hop2, hr2⟩ := hk 2
  have hexec : executeWithRetry createRetryState op =
      { result := { success := false, error := some e2, attempts := 0 + 1 + 1 + 1 },
        finalState := { attempts := 0 + 1 + 1 + 1, lastError := some e2,
                        isRetrying := decide (0 + 1 + 1 > 0) },
        calls := 0 + 1 + 1 + 1,
        delays := (([] ++ [calculateRetryDelay (0 + 1 - 1)]) ++
          [calculateRetryDelay (0 + 1 + 1 - 1)]) } := by
    calc executeWithRetry createRetryState op
        = retryLoop op (RETRY_CONFIG.maxRetries + 1) 0 0 none false [] := rfl
      _ = retryLoop op RETRY_CONFIG.maxRetries (0 + 1) (0 + 1) (some e0)
            (decide (0 > 0)) ([] ++ [calculateRetryDelay (0 + 1 - 1)]) :=
          retryLoop_succ_retry (by decide) hop0 hr0 (by decide)
      _ = retryLoop op (2 + 1) (0 + 1) (0 + 1) (some e0)
            (decide (0 > 0)) ([] ++ [calculateRetryDelay (0 + 1 - 1)]) := rfl
      _ = retryLoop op 2 (0 + 1 + 1) (0 + 1 + 1) (some e1) (decide (0 + 1 > 0))
            (([] ++ [calculateRetryDelay (0 + 1 - 1)]) ++
              [calculateRetryDelay (0 + 1 + 1 - 1)]) :=
          retryLoop_succ_retry (by decide) hop1 hr1 (by decide)
      _ = retryLoop op (1 + 1) (0 + 1 + 1) (0 + 1 + 1) (some e1) (decide (0 + 1 > 0))
            (([] ++ [calculateRetryDelay (0 + 1 - 1)]) ++
              [calculateRetryDelay (0 + 1 + 1 - 1)]) := rfl
      _ = _ := retryLoop_succ_stop (by decide) hop2 (by rw [hr2]; decide)
  refine ⟨?_, ?_, ?_, ?_, ?_⟩ <;> rw [hexec] <;> rfl

/-- C1 witness: the theorem instantiated at the operation that always
fails with a network error. -/
theorem executeWithRetry_retryable_exhaustion_witness :
    (executeWithRetry createRetryState alwaysNetworkError).calls =
      RETRY_CONFIG.maxRetries ∧
    (executeWithRetry createRetryState alwaysNetworkError).result.success = false ∧
    (executeWithRetry createRetryState alwaysNetworkError).result.attempts =
      RETRY_CONFIG.maxRetries ∧
    (executeWithRetry createRetryState alwaysNetworkError).delays =
      [calculateRetryDelay 0, calculateRetryDelay 1] ∧
    (executeWithRetry createRetryState alwaysNetworkError).delays = [1000, 2000] :=
  executeWithRetry_retryable_exhaustion alwaysNetworkError (fun _ => Or.inl rfl)

/-- C2 (amended): once `attempts = maxRetries`, `canRetry` is false, but a
subsequent `executeWithRetry` call still invokes the operation exactly once
more with no backoff sleeps; on failure the stored attempts become
`maxRetries + 1`, and only a state with `attempts > maxRetries` makes
`executeWithRetry` return without invoking the operation; the stored
attempts never exceed `maxRetries + 1` when starting from
`attempts ≤ maxRetries`. -/
theorem executeWithRetry_exhausted_state (st : RetryState) (op : Nat → Option ErrorCode)
    (hst : st.attempts = RETRY_CONFIG.maxRetries) :
    canRetry st = false ∧
    (executeWithRetry st op).calls = 1 ∧
    (executeWithRetry st op).delays = [] ∧
    (∀ e, op 0 = some e → (executeWithRetry st op).result.success = false ∧
      (executeWithRetry st op).finalState.attempts = RETRY_CONFIG.maxRetries + 1) ∧
    (∀ st2 : RetryState, RETRY_CONFIG.maxRetries < st2.attempts →
      (executeWithRetry st2 op).calls = 0 ∧ (executeWithRetry st2 op).finalState = st2) ∧
    (∀ st3 : RetryState, st3.attempts ≤ RETRY_CONFIG.maxRetries →
      (executeWithRetry st3 op).finalState.attempts ≤ RETRY_CONFIG.maxRetries + 1) := by
  have hcr : canRetry st = false := by
    simp [canRetry, hst]
  have hle : st.attempts ≤ RETRY_CONFIG.maxRetries := le_of_eq hst
  have hmain : (executeWithRetry st op).calls = 1 ∧ (executeWithRetry st op).delays = [] ∧
      (∀ e, op 0 = some e → (executeWithRetry st op).result.success = false ∧
        (executeWithRetry st op).finalState.attempts = RETRY_CONFIG.maxRetries + 1) := by
    cases hop : op 0 with
    | none =>
      rw [show executeWithRetry st op = retryLoop op (RETRY_CONFIG.maxRetries + 1) 0
        st.attempts st.lastError st.isRetrying [] from rfl,
        retryLoop_succ_success hle hop]
      exact ⟨rfl, rfl, fun e he => nomatch he⟩
    | some e0 =>
      have hdec : decide (st.attempts + 1 < RETRY_CONFIG.maxRetries) = false := by
        rw [hst]
        decide
      have hcond : (isRetryableError e0 &&
          decide (st.attempts + 1 < RETRY_CONFIG.maxRetries)) = false := by
        rw [hdec, Bool.and_false]
      rw [show executeWithRetry st op = retryLoop op (RETRY_CONFIG.maxRetries + 1) 0
        st.attempts st.lastError st.isRetrying [] from rfl,
        retryLoop_succ_stop hle hop hcond]
      refine ⟨rfl, rfl, fun e he => ⟨rfl, ?_⟩⟩
      show st.attempts + 1 = RETRY_CONFIG.maxRetries + 1
      rw [hst]
  refine ⟨hcr, hmain.1, hmain.2.1, hmain.2.2, ?_, ?_⟩
  · intro st2 hgt
    rw [show executeWithRetry st2 op = retryLoop op (RETRY_CONFIG.maxRetries + 1) 0
      st2.attempts st2.lastError st2.isRetrying [] from rfl,
      retryLoop_exhausted (by omega)]
    exact ⟨rfl, rfl⟩
  · intro st3 hle3
    have hb := retryLoop_attempts_le op (RETRY_CONFIG.maxRetries + 1) 0 st3.attempts
      st3.lastError st3.isRetrying []
    have heq : (executeWithRetry st3 op).finalState.attempts =
        (retryLoop op (RETRY_CONFIG.maxRetries + 1) 0 st3.attempts st3.lastError
          st3.isRetrying []).finalState.attempts := rfl
    rw [heq]
    omega

/-- C2 witness: the amended theorem instantiated at an exhausted state and
the always-network-error operation. -/
theorem executeWithRetry_exhausted_state_witness :
    canRetry { attempts := 3, lastError := none, isRetrying := false } = false ∧
    (executeWithRetry { attempts := 3, lastError := none, isRetrying := false }
      alwaysNetworkError).calls = 1 ∧
    (executeWithRetry { attempts := 3, lastError := none, isRetrying := false }
      alwaysNetworkError).finalState.attempts = RETRY_CONFIG.maxRetries + 1 := by
  have h := executeWithRetry_exhausted_state
    { attempts := 3, lastError := none, isRetrying := false } alwaysNetworkError rfl
  exact ⟨h.1, h.2.1, (h.2.2.2.1 ErrorCode.NETWORK_ERROR rfl).2⟩

/-- C2 counterexample: after a fresh state is exhausted by three retryable
failures (stored attempts = 3 = maxRetries), a further `executeWithRetry`
call for the same identifier invokes the operation once more (calls = 1,
not 0) and drives the stored attempts to 4 > maxRetries, without any
reset having happened. -/
theorem executeWithRetry_exhausted_reinvokes :
    (executeWithRetry createRetryState alwaysNetworkError).finalState.attempts =
      RETRY_CONFIG.maxRetries ∧
    (executeWithRetry (executeWithRetry createRetryState alwaysNetworkError).finalState
      alwaysNetworkError).calls = 1 ∧
    (executeWithRetry (executeWithRetry createRetryState alwaysNetworkError).finalState
      alwaysNetworkError).finalState.attempts = 4 ∧
    ¬((executeWithRetry (executeWithRetry createRetryState alwaysNetworkError).finalState
      alwaysNetworkError).finalState.attempts ≤ RETRY_CONFIG.maxRetries) := by
  decide

/-- C8: an upstream 403 carrying a rate-limit reason is classified as
`QUOTA_EXCEEDED`, which is not retryable: a download operation failing
with it makes `executeWithRetry` return failure after exactly one
invocation with zero backoff sleeps. -/
theorem rateLimit403_quota_nonretryable (reason : String)
    (h : reason = "userRateLimitExceeded" ∨ reason = "rateLimitExceeded") :
    (handleApiError (some 403) (some reason)).code = ErrorCode.QUOTA_EXCEEDED ∧
    isRetryableError (handleApiError (some 403) (some reason)).code = false ∧
    (executeWithRetry createRetryState
      (fun _ => some (handleApiError (some 403) (some reason)).code)).result.success
        = false ∧
    (executeWithRetry createRetryState
      (fun _ => some (handleApiError (some 403) (some reason)).code)).calls = 1 ∧
    (executeWithRetry createRetryState
      (fun _ => some (handleApiError (some 403) (some reason)).code)).delays = [] ∧
    (executeWithRetry createRetryState
      (fun _ => some (handleApiError (some 403) (some reason)).code)).result.attempts
        = 1 := by
  rcases h with rfl | rfl <;> decide

/-- C8 witness: the theorem instantiated at reason `userRateLimitExceeded`. -/
theorem rateLimit403_quota_nonretryable_witness :
    (handleApiError (some 403) (some "userRateLimitExceeded")).code =
      ErrorCode.QUOTA_EXCEEDED ∧
    isRetryableError (handleApiError (some 403) (some "userRateLimitExceeded")).code
      = false ∧
    (executeWithRetry createRetryState
      (fun _ => some (handleApiError (some 403)
        (some "userRateLimitExceeded")).code)).result.success = false ∧
    (executeWithRetry createRetryState
      (fun _ => some (handleApiError (some 403)
        (some "userRateLimitExceeded")).code)).calls = 1 ∧
    (executeWithRetry createRetryState
      (fun _ => some (handleApiError (some 403)
        (some "userRateLimitExceeded")).code)).delays = [] ∧
    (executeWithRetry createRetryState
      (fun _ => some (handleApiError (some 403)
        (some "userRateLimitExceeded")).code)).result.attempts = 1 :=
  rateLimit403_quota_nonretryable "userRateLimitExceeded" (Or.inl rfl)

theorem patternShape_nil (path : List Char) : ¬ patternShape path [] := by
  rintro ⟨pre, capturedId, rest, heq, hpre, -, -, -⟩
  rcases hpre with rfl | rfl
  · rw [show "https://".toList = 'h' :: "ttps://".toList from rfl] at heq
    simp at heq
  · rw [show "http://".toList = 'h' :: "ttp://".toList from rfl] at heq
    simp at heq

/-- C3: for every locator that parses, reconstructing the canonical URL
from the parsed reference and re-parsing yields the same id and the same
kind, and reconstruction emits the canonical `file/d/{id}/view` or
`drive/folders/{id}` form. -/
theorem parse_reconstruct_roundtrip {u : List Char} {ref : ParsedLink}
    (h : parse u = some ref) :
    (ref.type = LinkType.file → reconstructUrl ref =
      "https://drive.google.com/file/d/".toList ++ ref.id ++ "/view".toList) ∧
    (ref.type = LinkType.folder → reconstructUrl ref =
      "https://drive.google.com/drive/folders/".toList ++ ref.id) ∧
    ∃ ref2, parse (reconstructUrl ref) = some ref2 ∧
      ref2.id = ref.id ∧ ref2.type = ref.type := by
  obtain ⟨hne, hall⟩ := parse_some_inv h
  cases htype : ref.type with
  | file =>
    have hrec : reconstructUrl ref =
        "https://drive.google.com/file/d/".toList ++ ref.id ++ "/view".toList := by
      simp only [reconstructUrl, htype]
    refine ⟨fun _ => hrec, fun hcon => absurd hcon (by decide),
      ⟨{ type := LinkType.file, id := ref.id,
         originalUrl := "https://drive.google.com/file/d/".toList ++ ref.id ++
           "/view".toList }, ?_, rfl, rfl⟩⟩
    rw [hrec]
    exact parse_file_canonical hne hall
  | folder =>
    have hrec : reconstructUrl ref =
        "https://drive.google.com/drive/folders/".toList ++ ref.id := by
      simp only [reconstructUrl, htype]
    refine ⟨fun hcon => absurd hcon (by decide), fun _ => hrec,
      ⟨{ type := LinkType.folder, id := ref.id,
         originalUrl := "https://drive.google.com/drive/folders/".toList ++ ref.id },
       ?_, rfl, rfl⟩⟩
    rw [hrec]
    exact parse_folder_canonical hne hall

/-- C3 witness: the round trip at the concrete locator
`https://drive.example file/d/AbC123xyz0/view` shape on the real host. -/
theorem parse_reconstruct_roundtrip_witness :
    parse "https://drive.google.com/file/d/AbC123xyz0/view".toList =
      some { type := LinkType.file, id := "AbC123xyz0".toList,
             originalUrl := "https://drive.google.com/file/d/AbC123xyz0/view".toList } ∧
    ∃ ref2,
      parse (reconstructUrl
          { type := LinkType.file, id := "AbC123xyz0".toList,
            originalUrl :=
              "https://drive.google.com/file/d/AbC123xyz0/view".toList }) =
        some ref2 ∧ ref2.id = "AbC123xyz0".toList ∧ ref2.type = LinkType.file := by
  have h : parse "https://drive.google.com/file/d/AbC123xyz0/view".toList =
      some { type := LinkType.file, id := "AbC123xyz0".toList,
             originalUrl := "https://drive.google.com/file/d/AbC123xyz0/view".toList } := by
    decide
  exact ⟨h, (parse_reconstruct_roundtrip h).2.2⟩

/-- C4 counterexample: `https://drive.google.com/file/d/abcdefghij` (no
`/view` segment) matches none of the three accepted shapes stated by the
claim, yet `parse` accepts it and `isValid` returns true — the code's
patterns are prefix-anchored and do not require `/view` or restrict what
follows the id. -/
theorem parse_accepts_viewless_url :
    specAcceptedShape (jsTrim "https://drive.google.com/file/d/abcdefghij".toList) =
      false ∧
    parse "https://drive.google.com/file/d/abcdefghij".toList ≠ none ∧
    isValidGoogleDriveUrl "https://drive.google.com/file/d/abcdefghij".toList = true := by
  decide

/-- C4 (amended): `isValid(s) = (parse(s) ≠ null)` for every input, and
`parse` accepts exactly the strings whose trimmed form decomposes as an
explicit http/https scheme, the exact host, one of the three
path prefixes `file/d/`, `open?id=`, `drive/folders/`, and a maximal
nonempty run of id characters — with any suffix (including none)
permitted after the id; everything else yields null. -/
theorem isValid_parse_agreement (s : List Char) :
    isValidGoogleDriveUrl s = (parse s).isSome ∧
    ((parse s).isSome = true ↔
      (patternShape "drive.google.com/file/d/".toList (jsTrim s) ∨
       patternShape "drive.google.com/open?id=".toList (jsTrim s) ∨
       patternShape "drive.google.com/drive/folders/".toList (jsTrim s))) := by
  by_cases hs : s = []
  · subst hs
    refine ⟨rfl, ?_⟩
    rw [show jsTrim ([] : List Char) = [] from rfl]
    constructor
    · intro hfalse
      exact absurd hfalse (by decide)
    · rintro (hsh | hsh | hsh) <;> exact absurd hsh (patternShape_nil _)
  · constructor
    · rw [isValid_trim hs, parse_trim hs]
      by_cases ht : jsTrim s = []
      · rw [ht]
        rfl
      · rw [isValid_eq_matchers ht (jsTrim_idem s),
          parse_isSome_eq_matchers ht (jsTrim_idem s)]
    · rw [parse_trim hs]
      by_cases ht : jsTrim s = []
      · rw [ht]
        constructor
        · intro hfalse
          exact absurd hfalse (by decide)
        · rintro (hsh | hsh | hsh) <;> exact absurd hsh (patternShape_nil _)
      · rw [parse_isSome_eq_matchers ht (jsTrim_idem s)]
        simp only [fileDMatch, openIdMatch, folderMatch, Bool.or_eq_true,
          matchPattern_isSome_iff]
        exact or_assoc

/-- C5 counterexample: a one-character id parses successfully, violating
the claimed minimum length 10. -/
theorem parse_short_id_counterexample :
    parse "https://drive.google.com/file/d/a/view".toList =
      some { type := LinkType.file, id := ['a'],
             originalUrl := "https://drive.google.com/file/d/a/view".toList } ∧
    (['a'] : List Char).length = 1 ∧ ¬(10 ≤ (['a'] : List Char).length) := by
  decide

/-- C5 (amended): every reference produced by `parse` has a nonempty id
drawn from the character class `[A-Za-z0-9_-]`; the code enforces no
length bounds beyond nonemptiness. -/
theorem parse_id_character_class {u : List Char} {ref : ParsedLink}
    (h : parse u = some ref) :
    ref.id ≠ [] ∧ ∀ c ∈ ref.id, idChar c = true :=
  parse_some_inv h

/-- C5 witness: the amended theorem at a concrete `open?id=` locator. -/
theorem parse_id_character_class_witness :
    parse "https://drive.google.com/open?id=XyZ-_12345".toList =
      some { type := LinkType.file, id := "XyZ-_12345".toList,
             originalUrl := "https://drive.google.com/open?id=XyZ-_12345".toList } ∧
    ("XyZ-_12345".toList ≠ [] ∧ ∀ c ∈ "XyZ-_12345".toList, idChar c = true) := by
  have h : parse "https://drive.google.com/open?id=XyZ-_12345".toList =
      some { type := LinkType.file, id := "XyZ-_12345".toList,
             originalUrl := "https://drive.google.com/open?id=XyZ-_12345".toList } := by
    decide
  exact ⟨h, parse_id_character_class h⟩

/-- C6 counterexample: a session holding an access token, a refresh token
and the expiry timestamp 0 satisfies `now ≥ expiresAt - 300000`, yet the
middleware performs no refresh attempt and hands the stored token back,
because `expiresAt && ...` treats the numeric value 0 as falsy. -/
theorem token_refresh_zero_expiry_counterexample :
    ((0 : Int) ≥ 0 - 300000) ∧
    (extractUserToken
      { accessToken := some "tok", refreshToken := some "refTok",
        expiresAt := some 0, user := none, userId := none } 0
      (some { accessToken := "newTok", refreshToken := "newRefTok",
              expiresAt := 1000000 })).refreshAttempted = false ∧
    (extractUserToken
      { accessToken := some "tok", refreshToken := some "refTok",
        expiresAt := some 0, user := none, userId := none } 0
      (some { accessToken := "newTok", refreshToken := "newRefTok",
              expiresAt := 1000000 })).reqAccessToken = some "tok" := by
  decide

/-- C6 (amended): for a session holding a nonempty access token, a
nonempty refresh token and a nonzero expiry timestamp, the middleware
attempts a refresh exactly when `now ≥ expiresAt - 300000` ms; below that
instant the stored token is handed to the caller unchanged, with no
refresh and no session mutation. -/
theorem token_refresh_buffer (sess : SessionData) (now : Int)
    (outcome : Option RefreshedTokens) (a r : String) (e : Int)
    (ha : sess.accessToken = some a) (ha0 : a ≠ "")
    (hr : sess.refreshToken = some r) (hr0 : r ≠ "")
    (he : sess.expiresAt = some e) (hz : e ≠ 0) :
    ((extractUserToken sess now outcome).refreshAttempted = true ↔
      now ≥ e - 300000) ∧
    (now < e - 300000 → extractUserToken sess now outcome =
      { session := sess, reqAccessToken := some a, refreshAttempted := false }) := by
  have hexp : isTokenExpired now e = decide (now ≥ e - 300000) := by
    unfold isTokenExpired
    norm_num
  by_cases hnow : now ≥ e - 300000
  · have hguard : isTokenExpired now e = true := by
      rw [hexp]
      exact decide_eq_true hnow
    have hres : (extractUserToken sess now outcome).refreshAttempted = true := by
      cases outcome with
      | some t =>
        by_cases ht0 : t.accessToken = ""
        · simp only [extractUserToken, ha, he, hr, if_neg hz, if_neg ha0, if_neg hr0,
            hguard, if_true, attemptTokenRefresh, if_pos ht0]
        · simp only [extractUserToken, ha, he, hr, if_neg hz, if_neg ha0, if_neg hr0,
            hguard, if_true, attemptTokenRefresh, if_neg ht0]
      | none =>
        simp only [extractUserToken, ha, he, hr, if_neg hz, if_neg ha0, if_neg hr0,
          hguard, if_true, attemptTokenRefresh]
    refine ⟨⟨fun _ => hnow, fun _ => hres⟩, fun hlt => absurd hnow (not_le.mpr hlt)⟩
  · have hguard : isTokenExpired now e = false := by
      rw [hexp]
      exact decide_eq_false hnow
    have hres : extractUserToken sess now outcome =
        { session := sess, reqAccessToken := some a, refreshAttempted := false } := by
      simp only [extractUserToken, ha, if_neg ha0, he, if_neg hz, hguard]
      rw [if_neg Bool.false_ne_true]
    rw [hres]
    exact ⟨⟨fun hcon => absurd hcon (by simp), fun hge => absurd hge hnow⟩,
      fun _ => rfl⟩

/-- C6 witness: the amended theorem at a session whose token expired well
past the buffer. -/
theorem token_refresh_buffer_witness :
    ((extractUserToken
        (SessionData.mk (some "tok") (some "refTok") (some 1000000) none none)
        2000000 none).refreshAttempted = true ↔
      (2000000 : Int) ≥ 1000000 - 300000) ∧
    ((2000000 : Int) < 1000000 - 300000 →
      extractUserToken
        (SessionData.mk (some "tok") (some "refTok") (some 1000000) none none)
        2000000 none =
      ExtractResult.mk
        (SessionData.mk (some "tok") (some "refTok") (some 1000000) none none)
        (some "tok") false) :=
  token_refresh_buffer _ _ _ "tok" "refTok" 1000000 rfl (by decide) rfl (by decide)
    rfl (by decide)

/-- C7: after a failed token refresh every session token field (access
token, refresh token, expiry, user, userId) is absent, the request gets no
token, an explicit logout likewise leaves every field absent, and a
subsequent middleware pass over the cleared session observes no partial
state (no token, no refresh attempt, session unchanged). -/
theorem session_clear_atomic (sess : SessionData) (now : Int) (a r : String) (e : Int)
    (ha : sess.accessToken = some a) (ha0 : a ≠ "")
    (hr : sess.refreshToken = some r) (hr0 : r ≠ "")
    (he : sess.expiresAt = some e) (hz : e ≠ 0)
    (hexp : isTokenExpired now e = true) :
    (extractUserToken sess now none).session =
      SessionData.mk none none none none none ∧
    (extractUserToken sess now none).reqAccessToken = none ∧
    (∀ s2, logoutSession s2 = SessionData.mk none none none none none) ∧
    (∀ (now2 : Int) (outcome2 : Option RefreshedTokens),
      extractUserToken (extractUserToken sess now none).session now2 outcome2 =
        ExtractResult.mk (extractUserToken sess now none).session none false) := by
  have hres : extractUserToken sess now none =
      ExtractResult.mk (SessionData.mk none none none none none) none true := by
    simp only [extractUserToken, ha, if_neg ha0, he, hr, if_neg hz, if_neg hr0, hexp,
      if_true, attemptTokenRefresh, clearAuthSession]
  rw [hres]
  exact ⟨rfl, rfl, fun s2 => rfl, fun now2 outcome2 => rfl⟩

/-- C7 witness: the theorem at a concrete expired session whose refresh
call fails. -/
theorem session_clear_atomic_witness :
    (extractUserToken
      (SessionData.mk (some "tok") (some "refTok") (some 1000) none none)
      500000 none).session = SessionData.mk none none none none none ∧
    (extractUserToken
      (SessionData.mk (some "tok") (some "refTok") (some 1000) none none)
      500000 none).reqAccessToken = none ∧
    (∀ s2, logoutSession s2 = SessionData.mk none none none none none) ∧
    (∀ (now2 : Int) (outcome2 : Option RefreshedTokens),
      extractUserToken
        (extractUserToken
          (SessionData.mk (some "tok") (some "refTok") (some 1000) none none)
          500000 none).session now2 outcome2 =
        ExtractResult.mk
          (extractUserToken
            (SessionData.mk (some "tok") (some "refTok") (some 1000) none none)
            500000 none).session none false) :=
  session_clear_atomic _ 500000 "tok" "refTok" 1000 rfl (by decide) rfl (by decide)
    rfl (by decide) (by decide)

/-- C9: `calculateFolderProgress` returns exactly the arithmetic mean of
the tracked progress values over the given id list (an untracked id
contributes 0), and 0 for an empty id list. -/
theorem calculateFolderProgress_mean (downloads : List (String × DownloadProgress))
    (fileIds : List String) :
    calculateFolderProgress downloads fileIds =
      (fileIds.map (fun fileId =>
        match mapGet downloads fileId with
        | some download => download.progress
        | none => 0)).sum / (fileIds.length : ℚ) ∧
    calculateFolderProgress downloads [] = 0 := by
  constructor
  · by_cases hids : fileIds.length = 0
    · have hnil : fileIds = [] := List.length_eq_zero.mp hids
      subst hnil
      simp [calculateFolderProgress]
    · simp only [calculateFolderProgress, if_neg hids]
      rw [foldl_progress, zero_add]
  · rfl

/-- C10: `retryDownload` resets exactly the addressed failed/cancelled
task to a pending entry with zeroed progress and speed and cleared error
(its fileId, fileName and fileSize fields are those of the old entry),
leaves every other key untouched, and leaves the map completely unchanged
when the task has any other status or is untracked. -/
theorem retryDownload_frame (m : List (String × DownloadProgress)) (fileId : String) :
    (∀ d, mapGet m fileId = some d →
      (d.status = DownloadStatus.failed ∨ d.status = DownloadStatus.cancelled) →
      mapGet (retryDownload m fileId) fileId =
        some { d with
          progress := 0, speed := 0, status := DownloadStatus.pending,
          error := none } ∧
      (∀ k, k ≠ fileId → mapGet (retryDownload m fileId) k = mapGet m k)) ∧
    (∀ d, mapGet m fileId = some d →
      ¬(d.status = DownloadStatus.failed ∨ d.status = DownloadStatus.cancelled) →
      retryDownload m fileId = m) ∧
    (mapGet m fileId = none → retryDownload m fileId = m) := by
  refine ⟨?_, ?_, ?_⟩
  · intro d hd hst
    have hrw : retryDownload m fileId =
        mapSet m fileId { d with
          progress := 0, speed := 0,
          status := DownloadStatus.pending, error := none } := by
      simp only [retryDownload, hd, if_pos hst]
    rw [hrw]
    exact ⟨mapGet_mapSet_self _ _ _, fun k hk => mapGet_mapSet_other _ _ _ _ hk⟩
  · intro d hd hst
    simp only [retryDownload, hd, if_neg hst]
  · intro hd
    simp only [retryDownload, hd]

/-- C10 witness: the theorem at a map tracking one failed and one
completed task; the failed one is reset, the completed one untouched. -/
theorem retryDownload_frame_witness :
    mapGet (retryDownload sampleDownloads "abcdefghij") "abcdefghij" =
      some { failedTask with
        progress := 0, speed := 0,
        status := DownloadStatus.pending, error := none } ∧
    mapGet (retryDownload sampleDownloads "abcdefghij") "klmnopqrst" =
      mapGet sampleDownloads "klmnopqrst" := by
  have h := (retryDownload_frame sampleDownloads "abcdefghij").1 failedTask
    (by decide) (Or.inl (by decide))
  exact ⟨h.1, h.2 "klmnopqrst" (by decide)⟩
